import Mathlib

/-!
Verification development for the Confluence AI-assistant React client
(`harish-test-strategy`).  The definitions below are shallow embeddings of the
client-side logic: the Agent-Mode keyword dispatcher and execution loop
(`AgentMode.tsx`), the API service (`makeRequest`, `exportContent`, the
endpoint table), the Test-Support tool (`parseTestResultsFromLogs`, the
CircleCI polling loop) and the circular launcher (drag clamping, the
`localStorage` api-key swap).  Backend calls are abstracted as oracles;
machine-level browser primitives (`atob`, `TextEncoder`) are modelled by
their standard semantics.
-/

set_option maxRecDepth 4000

namespace HTS

/-! ## String utilities (models of JS string/regex primitives) -/

/-- Model of `String.prototype.toLowerCase` (the keyword patterns involved are
ASCII, where `Char.toLower` agrees with JS). -/
def jsToLower (s : String) : String := ⟨s.data.map Char.toLower⟩

/-- `listStartsWith p s`: does `s` start with the literal word `p`? -/
def listStartsWith : List Char → List Char → Bool
  | [], _ => true
  | _ :: _, [] => false
  | p :: ps, c :: cs => if p = c then listStartsWith ps cs else false

/-- `containsSub p s`: does the literal word `p` occur as a contiguous
substring of `s`?  Model of `String.prototype.includes` and of an unanchored
regex test for a literal alternative. -/
def containsSub (pat : List Char) : List Char → Bool
  | [] => listStartsWith pat []
  | c :: cs => listStartsWith pat (c :: cs) || containsSub pat cs

/-- Characters matched by `.` in a JavaScript regex: anything except the four
line terminators. -/
def jsDot (c : Char) : Bool :=
  !(c = '\n' || c = '\r' || c.toNat = 0x2028 || c.toNat = 0x2029)

/-- Does `.*b` (for a literal word `b`) match starting at the head of `s`? -/
def dotStarThen (b : List Char) : List Char → Bool
  | [] => listStartsWith b []
  | c :: cs => listStartsWith b (c :: cs) || (jsDot c && dotStarThen b cs)

/-- Unanchored test of the regex `a.*b` on `s`, for literal words `a`, `b`:
model of `/a.*b/.test(s)`. -/
def seqMatch (a b : List Char) : List Char → Bool
  | [] => listStartsWith a [] && dotStarThen b []
  | c :: cs =>
      (listStartsWith a (c :: cs) && dotStarThen b ((c :: cs).drop a.length))
        || seqMatch a b cs

theorem listStartsWith_iff (p : List Char) :
    ∀ s : List Char, listStartsWith p s = true ↔ ∃ r, s = p ++ r := by
  induction p with
  | nil =>
    intro s
    simp [listStartsWith]
  | cons x ps ih =>
    intro s
    cases s with
    | nil =>
      constructor
      · intro h
        exact absurd h (by simp [listStartsWith])
      · rintro ⟨r, hr⟩
        exact absurd hr (by simp)
    | cons c cs =>
      constructor
      · intro h
        have hxc : x = c := by
          by_contra hne
          simp only [listStartsWith, if_neg hne] at h
          exact Bool.false_ne_true h
        subst hxc
        simp only [listStartsWith, if_pos rfl] at h
        obtain ⟨r, hr⟩ := (ih cs).mp h
        exact ⟨r, by simp [hr]⟩
      · rintro ⟨r, hr⟩
        rw [List.cons_append] at hr
        injection hr with h1 h2
        subst h1
        simp only [listStartsWith, if_pos rfl]
        exact (ih cs).mpr ⟨r, h2⟩

/-! ## Agent Mode: keyword dispatch (`AgentMode.tsx`, `handleGoalSubmit` and
the chat form's `onSubmit`) -/

/-- A feature the Agent-Mode dispatcher can invoke. -/
inductive Feature where
  | search
  | code
  | video
  | impact
  | test
  | image
  deriving DecidableEq, Repr, Fintype

/-- `/search|analyz|summariz|find|explor|context/.test(lowerGoal)` etc.:
each feature's keyword regex, applied to the lowercased goal. -/
def featureMatches (f : Feature) (lowerGoal : String) : Bool :=
  match f with
  | .search =>
      containsSub "search".data lowerGoal.data
        || containsSub "analyz".data lowerGoal.data
        || containsSub "summariz".data lowerGoal.data
        || containsSub "find".data lowerGoal.data
        || containsSub "explor".data lowerGoal.data
        || containsSub "context".data lowerGoal.data
  | .code =>
      containsSub "code".data lowerGoal.data
        || containsSub "convert".data lowerGoal.data
        || containsSub "refactor".data lowerGoal.data
        || containsSub "translate".data lowerGoal.data
        || containsSub "language".data lowerGoal.data
  | .video =>
      containsSub "video".data lowerGoal.data
        || seqMatch "summariz".data "video".data lowerGoal.data
        || seqMatch "extract".data "quote".data lowerGoal.data
  | .impact =>
      containsSub "impact".data lowerGoal.data
        || containsSub "compare".data lowerGoal.data
        || containsSub "diff".data lowerGoal.data
        || containsSub "change".data lowerGoal.data
        || containsSub "version".data lowerGoal.data
  | .test =>
      containsSub "test".data lowerGoal.data
        || containsSub "strategy".data lowerGoal.data
        || containsSub "cross-platform".data lowerGoal.data
        || containsSub "sensitivity".data lowerGoal.data
  | .image =>
      containsSub "image".data lowerGoal.data
        || containsSub "chart".data lowerGoal.data
        || containsSub "graph".data lowerGoal.data
        || containsSub "visualiz".data lowerGoal.data

/-- The fixed order in which `handleGoalSubmit` probes the six patterns. -/
def featureOrder : List Feature :=
  [.search, .code, .video, .impact, .test, .image]

/-- The six `if (re.test(lowerGoal)) featuresToRun.push(f)` statements of
`handleGoalSubmit`, in their fixed order, before the fallback. -/
def dispatchRaw (lg : String) : List Feature :=
  (if featureMatches .search lg then [Feature.search] else []) ++
  (if featureMatches .code lg then [Feature.code] else []) ++
  (if featureMatches .video lg then [Feature.video] else []) ++
  (if featureMatches .impact lg then [Feature.impact] else []) ++
  (if featureMatches .test lg then [Feature.test] else []) ++
  (if featureMatches .image lg then [Feature.image] else [])

/-- The `featuresToRun` computation of `handleGoalSubmit` (and the identical
chat-form `onSubmit`): the six keyword probes, then
`if (featuresToRun.length === 0) featuresToRun.push("search")`. -/
def featuresToRun (goal : String) : List Feature :=
  if (dispatchRaw (jsToLower goal)).isEmpty then [Feature.search]
  else dispatchRaw (jsToLower goal)

/-- The dispatch as the spec words it: the features whose pattern matches, in
the fixed order, with `search` as fallback when none matches. -/
def specDispatch (goal : String) : List Feature :=
  if (featureOrder.filter (fun f => featureMatches f (jsToLower goal))).isEmpty
  then [Feature.search]
  else featureOrder.filter (fun f => featureMatches f (jsToLower goal))

theorem dispatchRaw_eq_filter (lg : String) :
    dispatchRaw lg = featureOrder.filter (fun f => featureMatches f lg) := by
  unfold dispatchRaw featureOrder
  rcases h1 : featureMatches .search lg <;>
    rcases h2 : featureMatches .code lg <;>
      rcases h3 : featureMatches .video lg <;>
        rcases h4 : featureMatches .impact lg <;>
          rcases h5 : featureMatches .test lg <;>
            rcases h6 : featureMatches .image lg <;>
              simp [h1, h2, h3, h4, h5, h6, List.filter]

theorem featuresToRun_eq_specDispatch (goal : String) :
    featuresToRun goal = specDispatch goal := by
  unfold featuresToRun specDispatch
  rw [dispatchRaw_eq_filter]

theorem featuresToRun_ne_nil (goal : String) : featuresToRun goal ≠ [] := by
  unfold featuresToRun
  split
  · simp
  · next h =>
    simpa [List.isEmpty_iff] using h

theorem specDispatch_nodup (goal : String) : (specDispatch goal).Nodup := by
  unfold specDispatch
  split
  · simp
  · exact List.Nodup.filter _ (by decide)

theorem mem_specDispatch (goal : String) (f : Feature) :
    f ∈ specDispatch goal ↔
      (featureMatches f (jsToLower goal) = true ∨
        ((∀ g : Feature, featureMatches g (jsToLower goal) = false) ∧
          f = .search)) := by
  unfold specDispatch
  split
  · next hEmpty =>
    have hall : ∀ g : Feature, featureMatches g (jsToLower goal) = false := by
      intro g
      have hg : g ∈ featureOrder := by cases g <;> decide
      have := List.filter_eq_nil_iff.mp (List.isEmpty_iff.mp hEmpty) g hg
      simpa using this
    simp only [List.mem_singleton]
    constructor
    · intro h
      exact Or.inr ⟨hall, h⟩
    · rintro (h | ⟨_, h⟩)
      · rw [hall f] at h
        exact absurd h (by simp)
      · exact h
  · next hNE =>
    rw [List.mem_filter]
    have hfo : f ∈ featureOrder := by cases f <;> decide
    constructor
    · rintro ⟨-, h⟩
      exact Or.inl h
    · rintro (h | ⟨hall, -⟩)
      · exact ⟨hfo, h⟩
      · exfalso
        apply hNE
        simp only [List.isEmpty_iff, List.filter_eq_nil_iff]
        intro g _
        simp [hall g]

/-- C1: In Agent Mode, the dispatched feature list is exactly the features
whose keyword pattern matches the lowercased goal, each at most once, in the
fixed probe order, with the single feature `search` dispatched when no pattern
matches; in particular at least one feature is always dispatched. -/
theorem C1_agent_dispatch (goal : String) :
    featuresToRun goal = specDispatch goal ∧
    (featuresToRun goal).Nodup ∧
    featuresToRun goal ≠ [] ∧
    (∀ f : Feature, f ∈ featuresToRun goal ↔
      (featureMatches f (jsToLower goal) = true ∨
        ((∀ g : Feature, featureMatches g (jsToLower goal) = false) ∧
          f = .search))) := by
  refine ⟨featuresToRun_eq_specDispatch goal, ?_, featuresToRun_ne_nil goal, ?_⟩
  · rw [featuresToRun_eq_specDispatch goal]
    exact specDispatch_nodup goal
  · intro f
    rw [featuresToRun_eq_specDispatch goal]
    exact mem_specDispatch goal f

/-- Witness for C1 at a concrete goal matched by the `code` pattern only. -/
theorem C1_agent_dispatch_witness :
    featuresToRun "Convert this code to Java" =
      specDispatch "Convert this code to Java" ∧
    Feature.code ∈ featuresToRun "Convert this code to Java" ∧
    featuresToRun "Convert this code to Java" ≠ [] := by
  have h := C1_agent_dispatch "Convert this code to Java"
  exact ⟨h.1, (h.2.2.2 Feature.code).mpr (Or.inl (by decide)), h.2.2.1⟩

/-! ## Agent Mode: execution loop and output tabs -/

/-- One entry of the `outputTabs` state (the `icon` field is a React
component and is not modelled). -/
structure OutputTab where
  id : String
  label : String
  content : String
  deriving DecidableEq, Repr

/-- The tab id pushed for a feature: `results.push({ id: feature, ... })`. -/
def featureId : Feature → String
  | .search => "search"
  | .code => "code"
  | .video => "video"
  | .impact => "impact"
  | .test => "test"
  | .image => "image"

/-- The `label` assigned inside each branch of the `try` block. -/
def featureLabel : Feature → String
  | .search => "AI Powered Search"
  | .code => "Code Assistant"
  | .video => "Video Summarizer"
  | .impact => "Impact Analyzer"
  | .test => "Test Support Tool"
  | .image => "Image Insights"

/-- One iteration of the `for (const feature of featuresToRun)` loop.  The
backend is abstracted as an oracle `call`: `.ok c` means the `try` branch for
the feature computed `content = c` from the API response, `.error m` means the
awaited API call threw with resolved message `m`
(`err.message || err.toString()`); the `catch` clause then sets
`content = "Error: " + m`.  The `image` branch makes no backend call and uses
a fixed placeholder. -/
def runFeatureTab (call : Feature → Except String String) (f : Feature) :
    OutputTab :=
  match f with
  | .image =>
      ⟨"image", "Image Insights",
        "Image analysis and chart generation would be shown here."⟩
  | _ =>
      match call f with
      | .ok c => ⟨featureId f, featureLabel f, c⟩
      | .error m => ⟨featureId f, featureLabel f, "Error: " ++ m⟩

/-- The whole execution loop: one pushed tab per dispatched feature, in
dispatch order (`setOutputTabs(results)`). -/
def runGoal (call : Feature → Except String String) (goal : String) :
    List OutputTab :=
  (featuresToRun goal).map (runFeatureTab call)

/-- `setActiveTab(results[0]?.id || "answer")`. -/
def activeTabAfter (tabs : List OutputTab) : String :=
  match tabs with
  | [] => "answer"
  | t :: _ => t.id

theorem runFeatureTab_id (call : Feature → Except String String)
    (f : Feature) : (runFeatureTab call f).id = featureId f := by
  cases f <;> first
    | rfl
    | (unfold runFeatureTab; cases call Feature.search <;> rfl)
    | skip
  all_goals unfold runFeatureTab
  · cases call Feature.code <;> rfl
  · cases call Feature.video <;> rfl
  · cases call Feature.impact <;> rfl
  · cases call Feature.test <;> rfl

/-- C2: after executing a goal, the output tabs are exactly one per dispatched
feature in dispatch order, the active tab is the first tab's id, and a thrown
backend call yields the tab `⟨id, label, "Error: " ++ message⟩` for that
feature without aborting the run (tab count is preserved). -/
theorem C2_agent_tabs (call : Feature → Except String String) (goal : String) :
    (runGoal call goal).map OutputTab.id = (featuresToRun goal).map featureId ∧
    runGoal call goal ≠ [] ∧
    activeTabAfter (runGoal call goal) =
      featureId ((featuresToRun goal).headD .search) ∧
    (∀ f : Feature, f ∈ featuresToRun goal → f ≠ .image →
      ∀ m : String, call f = .error m →
        OutputTab.mk (featureId f) (featureLabel f) ("Error: " ++ m) ∈
          runGoal call goal) := by
  refine ⟨?_, ?_, ?_, ?_⟩
  · unfold runGoal
    rw [List.map_map]
    apply List.map_congr_left
    intro f _
    exact runFeatureTab_id call f
  · unfold runGoal
    simp only [ne_eq, List.map_eq_nil_iff]
    exact featuresToRun_ne_nil goal
  · unfold runGoal
    rcases hfs : featuresToRun goal with _ | ⟨f, rest⟩
    · exact absurd hfs (featuresToRun_ne_nil goal)
    · simp only [List.map_cons, activeTabAfter, List.headD_cons]
      exact runFeatureTab_id call f
  · intro f hmem hni m hcall
    have htab : runFeatureTab call f =
        OutputTab.mk (featureId f) (featureLabel f) ("Error: " ++ m) := by
      cases f
      all_goals simp only [runFeatureTab, hcall]
      all_goals first
        | rfl
        | exact absurd rfl hni
    rw [← htab]
    exact List.mem_map_of_mem (runFeatureTab call) hmem

/-- Witness for C2 at a concrete goal and an oracle whose calls all throw. -/
theorem C2_agent_tabs_witness :
    OutputTab.mk "video" "Video Summarizer" "Error: network down" ∈
      runGoal (fun _ => Except.error "network down") "summarize the video" := by
  have h := C2_agent_tabs (fun _ => Except.error "network down")
    "summarize the video"
  exact h.2.2.2 Feature.video (by decide) (by decide) "network down" rfl

/-! ## Browser `localStorage` model -/

/-- `localStorage` as an association list of key/value pairs. -/
abbrev BrowserStorage := List (String × String)

/-- `localStorage.getItem` (first binding wins; `none` models `null`). -/
def storageGet : BrowserStorage → String → Option String
  | [], _ => none
  | (k', v) :: rest, k => if k' = k then some v else storageGet rest k

/-- `localStorage.setItem`: replace the binding for the key, or append it. -/
def storageSet : BrowserStorage → String → String → BrowserStorage
  | [], k, v => [(k, v)]
  | (k', v') :: rest, k, v =>
      if k' = k then (k, v) :: rest else (k', v') :: storageSet rest k v

theorem storageGet_storageSet_same (st : BrowserStorage) (k v : String) :
    storageGet (storageSet st k v) k = some v := by
  induction st with
  | nil => simp [storageSet, storageGet]
  | cons kv rest ih =>
    obtain ⟨k', v'⟩ := kv
    by_cases h : k' = k
    · simp [storageSet, storageGet, h]
    · simp only [storageSet, if_neg h, storageGet]
      exact ih

theorem storageGet_storageSet_other (st : BrowserStorage) (k v k₂ : String)
    (hne : k₂ ≠ k) : storageGet (storageSet st k v) k₂ = storageGet st k₂ := by
  have hne' : ¬ k = k₂ := fun h => hne h.symm
  induction st with
  | nil => simp [storageSet, storageGet, hne']
  | cons kv rest ih =>
    obtain ⟨k', v'⟩ := kv
    by_cases h : k' = k
    · subst h
      have hk : ¬ k' = k₂ := hne'
      simp [storageSet, storageGet, hk]
    · simp only [storageSet, if_neg h, storageGet]
      by_cases h2 : k' = k₂
      · simp [h2]
      · rw [if_neg h2, if_neg h2]
        exact ih

/-! ## `ApiService` (`src/services/api.ts`): request headers -/

/-- A JS header object, keyed lookup-first. -/
abbrev HeaderMap := List (String × String)

/-- First-match lookup in a header object. -/
def hget : HeaderMap → String → Option String
  | [], _ => none
  | (k', v) :: rest, k => if k' = k then some v else hget rest k

/-- `Object.assign (\x7b\x7d, a, b)`: keys of `b` override keys of `a`
(under `hget`-lookup semantics, listing `b` first). -/
def objAssign (a b : HeaderMap) : HeaderMap := b ++ a

/-- `ApiService.getSelectedApiKey`: the stored `selectedApiKeyId` when it is
truthy (non-null, non-empty), else `undefined`. -/
def getSelectedApiKey (storage : BrowserStorage) : Option String :=
  match storageGet storage "selectedApiKeyId" with
  | some s => if s = "" then none else some s
  | none => none

/-- The `options` argument of `makeRequest`: `headers = none` models an
options object with no `headers` property (as in every call the service
makes). -/
structure RequestOptions where
  method : Option String
  body : Option String
  headers : Option HeaderMap
  deriving DecidableEq, Repr

/-- The `optHeaders` extraction of `makeRequest`: the caller's headers object
when present, else the empty object. -/
def callerHeaders : Option RequestOptions → HeaderMap
  | some o =>
      match o.headers with
      | some hs => hs
      | none => []
  | none => []

/-- The `headers` record `makeRequest` builds: base `Content-Type` merged
with any caller headers object, then `headers["x-api-key"] = apiKey` when the
stored key is truthy. -/
def mergedHeaders (storage : BrowserStorage) (opts : Option RequestOptions) :
    HeaderMap :=
  match getSelectedApiKey storage with
  | some k =>
      ("x-api-key", k) ::
        objAssign [("Content-Type", "application/json")] (callerHeaders opts)
  | none => objAssign [("Content-Type", "application/json")] (callerHeaders opts)

/-- The headers actually handed to `fetch`: the init object is written
`\x7b headers, ...options \x7d`, so when the caller's options carry a
`headers` property the spread overrides the merged record with the raw
caller value. -/
def sentHeaders (storage : BrowserStorage) (opts : Option RequestOptions) :
    HeaderMap :=
  match opts with
  | some o =>
      match o.headers with
      | some hs => hs
      | none => mergedHeaders storage opts
  | none => mergedHeaders storage opts

/-- C10 counterexample: with a non-empty stored api key but caller-supplied
headers (not mentioning either header), the spread `...options` drops both
`x-api-key` and `Content-Type`, refuting the claimed iff and the
"always sent unless overridden" clause. -/
theorem C10_headers_counterexample :
    getSelectedApiKey [("selectedApiKeyId", "GENAI_API_KEY_1")] =
      some "GENAI_API_KEY_1" ∧
    hget (sentHeaders [("selectedApiKeyId", "GENAI_API_KEY_1")]
      (some ⟨some "POST", none, some [("Accept", "text/plain")]⟩))
      "x-api-key" = none ∧
    hget (sentHeaders [("selectedApiKeyId", "GENAI_API_KEY_1")]
      (some ⟨some "POST", none, some [("Accept", "text/plain")]⟩))
      "Content-Type" = none := by
  refine ⟨rfl, rfl, rfl⟩

theorem mergedHeaders_no_caller (storage : BrowserStorage)
    (opts : Option RequestOptions) (hch : callerHeaders opts = []) :
    hget (mergedHeaders storage opts) "x-api-key" = getSelectedApiKey storage ∧
    hget (mergedHeaders storage opts) "Content-Type" =
      some "application/json" ∧
    (hget (mergedHeaders storage opts) "x-api-key" ≠ none ↔
      ∃ s, storageGet storage "selectedApiKeyId" = some s ∧ s ≠ "") := by
  unfold mergedHeaders
  rw [hch]
  refine ⟨?_, ?_, ?_⟩
  · cases hk : getSelectedApiKey storage with
    | none => simp [objAssign, hget]
    | some k => simp [objAssign, hget]
  · cases hk : getSelectedApiKey storage with
    | none => simp [objAssign, hget]
    | some k => simp [objAssign, hget]
  · cases hk : storageGet storage "selectedApiKeyId" with
    | none =>
      simp [getSelectedApiKey, hk, objAssign, hget]
    | some s =>
      by_cases hs : s = ""
      · subst hs
        simp [getSelectedApiKey, hk, objAssign, hget]
      · simp [getSelectedApiKey, hk, hs, objAssign, hget]

/-- C10 amended: for every request whose options carry no `headers` property
(which is every call the API service makes), `x-api-key` is present iff the
stored `selectedApiKeyId` is non-empty, its value is that id, and
`Content-Type: application/json` is sent. -/
theorem C10_headers_contract (storage : BrowserStorage)
    (opts : Option RequestOptions)
    (hno : ∀ o, opts = some o → o.headers = none) :
    hget (sentHeaders storage opts) "x-api-key" = getSelectedApiKey storage ∧
    hget (sentHeaders storage opts) "Content-Type" =
      some "application/json" ∧
    (hget (sentHeaders storage opts) "x-api-key" ≠ none ↔
      ∃ s, storageGet storage "selectedApiKeyId" = some s ∧ s ≠ "") := by
  rcases opts with _ | ⟨m, b, hd⟩
  · exact mergedHeaders_no_caller storage none rfl
  · have ho : hd = none := hno ⟨m, b, hd⟩ rfl
    subst ho
    exact mergedHeaders_no_caller storage (some ⟨m, b, none⟩) rfl

/-- Witness for C10 at a concrete storage and option value. -/
theorem C10_headers_contract_witness :
    hget (sentHeaders [("selectedApiKeyId", "GENAI_API_KEY_2")]
        (some ⟨some "POST", none, none⟩)) "x-api-key" =
      getSelectedApiKey [("selectedApiKeyId", "GENAI_API_KEY_2")] ∧
    hget (sentHeaders [("selectedApiKeyId", "GENAI_API_KEY_2")]
        (some ⟨some "POST", none, none⟩)) "Content-Type" =
      some "application/json" ∧
    (hget (sentHeaders [("selectedApiKeyId", "GENAI_API_KEY_2")]
        (some ⟨some "POST", none, none⟩)) "x-api-key" ≠ none ↔
      ∃ s, storageGet [("selectedApiKeyId", "GENAI_API_KEY_2")]
          "selectedApiKeyId" = some s ∧ s ≠ "") :=
  C10_headers_contract [("selectedApiKeyId", "GENAI_API_KEY_2")]
    (some ⟨some "POST", none, none⟩) (fun _ h => by cases h; rfl)

/-! ## `ApiService.makeRequest`: error contract (C3) -/

/-- JS `detail || fallback` where `detail` is the optional string field of the
parsed error body (`none` models absent or `null`). -/
def jsStringOr (d : Option String) (fallback : String) : String :=
  match d with
  | some s => if s = "" then fallback else s
  | none => fallback

/-- A backend HTTP response as `makeRequest` observes it: the `ok` flag, the
`detail` field of the JSON body when the request failed, and the parsed JSON
body (abstracted as a string) when it succeeded. -/
structure HttpResponse where
  ok : Bool
  detail : Option String
  body : String
  deriving DecidableEq, Repr

/-- `makeRequest` as a function of the observed response: return the parsed
body when `response.ok`, otherwise throw
`new Error(error.detail || "API request failed")`. -/
def makeRequestResult (resp : HttpResponse) : Except String String :=
  if resp.ok then Except.ok resp.body
  else Except.error (jsStringOr resp.detail "API request failed")

/-- `AgentMode.loadSpaces`: the displayed error message as a function of the
`makeRequest` outcome — any thrown error is caught and surfaced as a fixed
message. -/
def loadSpacesError (r : Except String String) : Option String :=
  match r with
  | .ok _ => none
  | .error _ =>
      some "Failed to load spaces. Please check your backend connection."

/-- C3 counterexample: a failed response whose `detail` field is present but
empty produces the fallback message, not the `detail` field, because the code
tests `error.detail || "API request failed"` by truthiness. -/
theorem C3_makeRequest_counterexample :
    (HttpResponse.mk false (some "") "ignored").detail = some "" ∧
    makeRequestResult (HttpResponse.mk false (some "") "ignored") =
      Except.error "API request failed" ∧
    "API request failed" ≠ "" := ⟨rfl, rfl, by decide⟩

/-- C3 amended: `makeRequest` raises iff the response is not ok; the raised
message is the `detail` field when that is a non-empty string and
`"API request failed"` otherwise; an ok response returns the parsed body; and
the `loadSpaces` caller surfaces any raised error as its fixed display
message. -/
theorem C3_makeRequest_contract (resp : HttpResponse) :
    ((∃ e, makeRequestResult resp = Except.error e) ↔ resp.ok = false) ∧
    (resp.ok = true → makeRequestResult resp = Except.ok resp.body) ∧
    (∀ d, resp.ok = false → resp.detail = some d → d ≠ "" →
      makeRequestResult resp = Except.error d) ∧
    (resp.ok = false → (resp.detail = none ∨ resp.detail = some "") →
      makeRequestResult resp = Except.error "API request failed") ∧
    (∀ e, loadSpacesError (Except.error e) =
      some "Failed to load spaces. Please check your backend connection.") ∧
    (∀ b, loadSpacesError (Except.ok b) = none) := by
  refine ⟨?_, ?_, ?_, ?_, fun _ => rfl, fun _ => rfl⟩
  · constructor
    · rintro ⟨e, he⟩
      cases hok : resp.ok
      · rfl
      · unfold makeRequestResult at he
        rw [hok, if_pos rfl] at he
        exact absurd he (by simp)
    · intro hok
      exact ⟨jsStringOr resp.detail "API request failed", by
        unfold makeRequestResult
        rw [hok]
        rfl⟩
  · intro hok
    unfold makeRequestResult
    rw [hok, if_pos rfl]
  · intro d hok hd hne
    unfold makeRequestResult
    rw [hok, hd]
    simp [jsStringOr, hne]
  · intro hok hd
    unfold makeRequestResult
    rw [hok]
    rcases hd with hd | hd <;> rw [hd] <;> simp [jsStringOr]

/-- Witness for C3 at a concrete failed response carrying a non-empty
`detail`. -/
theorem C3_makeRequest_contract_witness :
    makeRequestResult (HttpResponse.mk false (some "Space not found") "x") =
      Except.error "Space not found" :=
  (C3_makeRequest_contract
    (HttpResponse.mk false (some "Space not found") "x")).2.2.1
    "Space not found" rfl rfl (by decide)

/-! ## `ApiService`: the endpoint table (C4) -/

/-- An HTTP endpoint: verb plus path template (dynamic segments written as
`{space}`, `{title}`, `{id}`). -/
structure Endpoint where
  verb : String
  path : String
  deriving DecidableEq, Repr

/-- The public methods of `ApiService` (plus `exportContent`, which issues its
own `fetch`). -/
inductive ApiCall where
  | getSpaces
  | getPages
  | search
  | videoSummarizer
  | codeAssistant
  | impactAnalyzer
  | testSupport
  | getImages
  | imageSummary
  | imageQA
  | createChart
  | generateFlowchart
  | exportContent
  | saveToConfluence
  | previewSaveToConfluence
  | scheduleUpdate
  | getCircleCIStatus
  | meetingNotesExtractor
  deriving DecidableEq, Repr, Fintype

/-- The endpoint each `ApiService` method hits, read off its
`makeRequest`/`fetch` call. -/
def endpointOf : ApiCall → Endpoint
  | .getSpaces => ⟨"GET", "/spaces"⟩
  | .getPages => ⟨"GET", "/pages/{space}"⟩
  | .search => ⟨"POST", "/search"⟩
  | .videoSummarizer => ⟨"POST", "/video-summarizer"⟩
  | .codeAssistant => ⟨"POST", "/code-assistant"⟩
  | .impactAnalyzer => ⟨"POST", "/impact-analyzer"⟩
  | .testSupport => ⟨"POST", "/test-support"⟩
  | .getImages => ⟨"GET", "/images/{space}/{title}"⟩
  | .imageSummary => ⟨"POST", "/image-summary"⟩
  | .imageQA => ⟨"POST", "/image-qa"⟩
  | .createChart => ⟨"POST", "/create-chart"⟩
  | .generateFlowchart => ⟨"POST", "/flowchart-generator"⟩
  | .exportContent => ⟨"POST", "/export"⟩
  | .saveToConfluence => ⟨"POST", "/save-to-confluence"⟩
  | .previewSaveToConfluence => ⟨"POST", "/preview-save-to-confluence"⟩
  | .scheduleUpdate => ⟨"POST", "/schedule-update"⟩
  | .getCircleCIStatus => ⟨"GET", "/circleci-status/{id}"⟩
  | .meetingNotesExtractor => ⟨"POST", "/meeting-notes-extractor"⟩

/-- The sixteen endpoints the spec lists. -/
def specEndpoints : List Endpoint :=
  [⟨"GET", "/spaces"⟩,
   ⟨"GET", "/pages/{space}"⟩,
   ⟨"POST", "/search"⟩,
   ⟨"POST", "/code-assistant"⟩,
   ⟨"POST", "/impact-analyzer"⟩,
   ⟨"POST", "/test-support"⟩,
   ⟨"POST", "/video-summarizer"⟩,
   ⟨"POST", "/image-summary"⟩,
   ⟨"POST", "/image-qa"⟩,
   ⟨"POST", "/create-chart"⟩,
   ⟨"POST", "/flowchart-generator"⟩,
   ⟨"POST", "/export"⟩,
   ⟨"POST", "/save-to-confluence"⟩,
   ⟨"POST", "/schedule-update"⟩,
   ⟨"GET", "/circleci-status/{id}"⟩,
   ⟨"POST", "/meeting-notes-extractor"⟩]

/-- C4 counterexample: the API service also calls `GET /images/...` (in
`getImages`) and `POST /preview-save-to-confluence` (in
`previewSaveToConfluence`), neither of which is in the spec's sixteen. -/
theorem C4_endpoints_counterexample :
    endpointOf .getImages ∉ specEndpoints ∧
    endpointOf .previewSaveToConfluence ∉ specEndpoints := by decide

/-- C4 amended: the endpoints the client consumes are exactly the spec's
sixteen plus `GET /images/{space}/{title}` and
`POST /preview-save-to-confluence`. -/
theorem C4_endpoints_amended :
    (∀ e ∈ specEndpoints, ∃ c : ApiCall, endpointOf c = e) ∧
    (∀ c : ApiCall, endpointOf c ∈ specEndpoints ∨
      endpointOf c = ⟨"GET", "/images/{space}/{title}"⟩ ∨
      endpointOf c = ⟨"POST", "/preview-save-to-confluence"⟩) := by decide

/-- Witness for C4 at a concrete endpoint and a concrete method. -/
theorem C4_endpoints_amended_witness :
    (∃ c : ApiCall, endpointOf c = ⟨"GET", "/spaces"⟩) ∧
    (endpointOf ApiCall.getCircleCIStatus ∈ specEndpoints ∨
      endpointOf ApiCall.getCircleCIStatus = ⟨"GET", "/images/{space}/{title}"⟩ ∨
      endpointOf ApiCall.getCircleCIStatus =
        ⟨"POST", "/preview-save-to-confluence"⟩) :=
  ⟨C4_endpoints_amended.1 ⟨"GET", "/spaces"⟩ (by decide),
    C4_endpoints_amended.2 ApiCall.getCircleCIStatus⟩

/-! ## `ApiService.exportContent` (C7): base64 and UTF-8 models -/

/-- The 6-bit value of a base64 alphabet character. -/
def base64Val (c : Char) : Option Nat :=
  let n := c.toNat
  if 65 ≤ n ∧ n ≤ 90 then some (n - 65)
  else if 97 ≤ n ∧ n ≤ 122 then some (n - 97 + 26)
  else if 48 ≤ n ∧ n ≤ 57 then some (n - 48 + 52)
  else if c = '+' then some 62
  else if c = '/' then some 63
  else none

/-- ASCII whitespace stripped by the forgiving-base64 decoder. -/
def isB64Whitespace (c : Char) : Bool :=
  c = ' ' || c = '\t' || c = '\n' || c = '\x0c' || c = '\r'

/-- Strip up to two trailing `=` when the cleaned length is a multiple of
four. -/
def stripB64Padding (l : List Char) : List Char :=
  if l.length % 4 = 0 then
    match l.reverse with
    | '=' :: '=' :: rest => rest.reverse
    | '=' :: rest => rest.reverse
    | _ => l
  else l

/-- Reassemble 6-bit groups into bytes (4 → 3, 3 → 2, 2 → 1). -/
def b64Bytes : List Nat → List Nat
  | a :: b :: c :: d :: rest =>
      (a * 4 + b / 16) :: ((b % 16) * 16 + c / 4) :: ((c % 4) * 64 + d) ::
        b64Bytes rest
  | [a, b] => [a * 4 + b / 16]
  | [a, b, c] => [a * 4 + b / 16, (b % 16) * 16 + c / 4]
  | _ => []

/-- Model of `window.atob` (WHATWG forgiving-base64 decode): `none` models
the thrown `InvalidCharacterError`. -/
def atobBytes (s : String) : Option (List Nat) :=
  let cleaned := s.data.filter (fun c => !(isB64Whitespace c))
  let unpadded := stripB64Padding cleaned
  if unpadded.length % 4 = 1 then none
  else (unpadded.mapM base64Val).map b64Bytes

/-- UTF-8 encoding of one character (model of `TextEncoder`). -/
def utf8EncodeChar (c : Char) : List Nat :=
  let n := c.toNat
  if n < 0x80 then [n]
  else if n < 0x800 then [0xC0 + n / 0x40, 0x80 + n % 0x40]
  else if n < 0x10000 then
    [0xE0 + n / 0x1000, 0x80 + (n / 0x40) % 0x40, 0x80 + n % 0x40]
  else
    [0xF0 + n / 0x40000, 0x80 + (n / 0x1000) % 0x40, 0x80 + (n / 0x40) % 0x40,
      0x80 + n % 0x40]

/-- UTF-8 bytes of a string (model of `new TextEncoder().encode(s)`). -/
def utf8Bytes (s : String) : List Nat :=
  (s.data.map utf8EncodeChar).foldr (· ++ ·) []

/-- A `Blob` as constructed by `exportContent`: its bytes and MIME type. -/
structure BlobModel where
  bytes : List Nat
  mimeType : String
  deriving DecidableEq, Repr

/-- The JSON body of a successful `/export` response. -/
structure ExportJson where
  file : String
  mime : String
  filename : String
  deriving DecidableEq, Repr

/-- The `/export` HTTP response as `exportContent` observes it. -/
structure ExportHttpResponse where
  ok : Bool
  detail : Option String
  body : ExportJson
  deriving DecidableEq, Repr

/-- `ApiService.exportContent` as a function of the request format and the
observed response: throw `error.detail || "Export failed"` on a non-ok
response; for `pdf`/`docx` decode the `file` field with `atob` into a byte
`Blob` of the response's `mime`; otherwise UTF-8-encode the `file` field. -/
def exportContentResult (format : String) (resp : ExportHttpResponse) :
    Except String BlobModel :=
  if !resp.ok then Except.error (jsStringOr resp.detail "Export failed")
  else if format = "pdf" ∨ format = "docx" then
    match atobBytes resp.body.file with
    | some bytes => Except.ok ⟨bytes, resp.body.mime⟩
    | none => Except.error "InvalidCharacterError"
  else Except.ok ⟨utf8Bytes resp.body.file, resp.body.mime⟩

/-- C7: on a successful export response, `exportContent` returns a Blob of
exactly the base64-decoded bytes of the `file` field (with the response's
`mime` type) for the `pdf` and `docx` formats, and a Blob of exactly the
UTF-8 bytes of the `file` field for every other format. -/
theorem C7_exportContent (format : String) (resp : ExportHttpResponse) :
    (resp.ok = true → (format = "pdf" ∨ format = "docx") →
      ∀ bytes, atobBytes resp.body.file = some bytes →
        exportContentResult format resp = Except.ok ⟨bytes, resp.body.mime⟩) ∧
    (resp.ok = true → format ≠ "pdf" → format ≠ "docx" →
      exportContentResult format resp =
        Except.ok ⟨utf8Bytes resp.body.file, resp.body.mime⟩) := by
  constructor
  · intro hok hfmt bytes hdec
    unfold exportContentResult
    rw [hok]
    simp only [Bool.not_true, Bool.false_eq_true, if_false]
    rw [if_pos hfmt, hdec]
  · intro hok hp hd
    unfold exportContentResult
    rw [hok]
    simp only [Bool.not_true, Bool.false_eq_true, if_false]
    rw [if_neg (by
      rintro (h | h)
      · exact hp h
      · exact hd h)]

/-- Witness for C7: a pdf export of the base64 document `"AQI="` yields the
bytes `[1, 2]`, and a markdown export of `"hi"` yields its UTF-8 bytes. -/
theorem C7_exportContent_witness :
    exportContentResult "pdf"
        ⟨true, none, ⟨"AQI=", "application/pdf", "a.pdf"⟩⟩ =
      Except.ok ⟨[1, 2], "application/pdf"⟩ ∧
    exportContentResult "markdown"
        ⟨true, none, ⟨"hi", "text/markdown", "a.md"⟩⟩ =
      Except.ok ⟨[104, 105], "text/markdown"⟩ := by
  constructor
  · have h := (C7_exportContent "pdf"
      ⟨true, none, ⟨"AQI=", "application/pdf", "a.pdf"⟩⟩).1 rfl (Or.inl rfl)
      [1, 2] (by decide)
    simpa using h
  · have h := (C7_exportContent "markdown"
      ⟨true, none, ⟨"hi", "text/markdown", "a.md"⟩⟩).2 rfl (by decide) (by decide)
    have hb : utf8Bytes "hi" = [104, 105] := by decide
    rw [hb] at h
    exact h

/-! ## `TestSupportTool.parseTestResultsFromLogs` (C8) -/

def cPASSED : List Char := ['P', 'A', 'S', 'S', 'E', 'D']
def cFAILED : List Char := ['F', 'A', 'I', 'L', 'E', 'D']
def cERROR : List Char := ['E', 'R', 'R', 'O', 'R']

/-- `(logs.match(/PASSED/g) || []).length`: the number of matches of the
global regex, which scans left to right and resumes after each match. -/
def countPassedScan (l : List Char) : Nat :=
  match l with
  | [] => 0
  | c :: cs =>
      if listStartsWith cPASSED (c :: cs) then 1 + countPassedScan (cs.drop 5)
      else countPassedScan cs
termination_by l.length
decreasing_by
  all_goals simp only [List.length_cons, List.length_drop]
  all_goals omega

/-- `(logs.match(/FAILED|ERROR/g) || []).length`: the alternation prefers
`FAILED`, scans left to right and resumes after each match. -/
def countFEScan (l : List Char) : Nat :=
  match l with
  | [] => 0
  | c :: cs =>
      if listStartsWith cFAILED (c :: cs) then 1 + countFEScan (cs.drop 5)
      else if listStartsWith cERROR (c :: cs) then 1 + countFEScan (cs.drop 4)
      else countFEScan cs
termination_by l.length
decreasing_by
  all_goals simp only [List.length_cons, List.length_drop]
  all_goals omega

/-- The number of positions of `l` where the word `pat` occurs. -/
def countSub (pat : List Char) : List Char → Nat
  | [] => 0
  | c :: cs => (if listStartsWith pat (c :: cs) then 1 else 0) + countSub pat cs

theorem countPassedScan_eq_aux :
    ∀ (n : Nat) (l : List Char), l.length ≤ n →
      countPassedScan l = countSub cPASSED l := by
  intro n
  induction n with
  | zero =>
    intro l hl
    have hnil : l = [] := List.length_eq_zero.mp (Nat.le_zero.mp hl)
    subst hnil
    simp [countPassedScan, countSub]
  | succ n ih =>
    intro l hl
    match l with
    | [] => simp [countPassedScan, countSub]
    | c :: cs =>
      by_cases h : listStartsWith cPASSED (c :: cs) = true
      · obtain ⟨r, hr⟩ := (listStartsWith_iff cPASSED (c :: cs)).mp h
        have hc : c = 'P' := by
          have := congrArg List.head? hr
          simpa [cPASSED] using this
        have hcs : cs = 'A' :: 'S' :: 'S' :: 'E' :: 'D' :: r := by
          have := congrArg List.tail hr
          simpa [cPASSED] using this
        subst hc
        subst hcs
        have hrn : r.length ≤ n := by
          simp only [List.length_cons] at hl
          omega
        simp +decide only [countPassedScan, countSub, cPASSED, listStartsWith,
          List.drop, reduceIte]
        have ihr := ih r hrn
        simp only [cPASSED] at ihr
        omega
      · have hcn : cs.length ≤ n := by
          simp only [List.length_cons] at hl
          omega
        simp only [countPassedScan, countSub, if_neg h]
        rw [ih cs hcn]
        omega

theorem countPassedScan_eq (l : List Char) :
    countPassedScan l = countSub cPASSED l :=
  countPassedScan_eq_aux l.length l (Nat.le_refl _)

theorem countFEScan_eq_aux :
    ∀ (n : Nat) (l : List Char), l.length ≤ n →
      countFEScan l = countSub cFAILED l + countSub cERROR l := by
  intro n
  induction n with
  | zero =>
    intro l hl
    have hnil : l = [] := List.length_eq_zero.mp (Nat.le_zero.mp hl)
    subst hnil
    simp [countFEScan, countSub]
  | succ n ih =>
    intro l hl
    match l with
    | [] => simp [countFEScan, countSub]
    | c :: cs =>
      by_cases h1 : listStartsWith cFAILED (c :: cs) = true
      · obtain ⟨r, hr⟩ := (listStartsWith_iff cFAILED (c :: cs)).mp h1
        have hc : c = 'F' := by
          have := congrArg List.head? hr
          simpa [cFAILED] using this
        have hcs : cs = 'A' :: 'I' :: 'L' :: 'E' :: 'D' :: r := by
          have := congrArg List.tail hr
          simpa [cFAILED] using this
        subst hc
        subst hcs
        have hrn : r.length ≤ n := by
          simp only [List.length_cons] at hl
          omega
        simp +decide only [countFEScan, countSub, cFAILED, cERROR,
          listStartsWith, List.drop, reduceIte]
        have ihr := ih r hrn
        simp only [cFAILED, cERROR] at ihr
        omega
      · by_cases h2 : listStartsWith cERROR (c :: cs) = true
        · obtain ⟨r, hr⟩ := (listStartsWith_iff cERROR (c :: cs)).mp h2
          have hc : c = 'E' := by
            have := congrArg List.head? hr
            simpa [cERROR] using this
          have hcs : cs = 'R' :: 'R' :: 'O' :: 'R' :: r := by
            have := congrArg List.tail hr
            simpa [cERROR] using this
          subst hc
          subst hcs
          have hrn : r.length ≤ n := by
            simp only [List.length_cons] at hl
            omega
          simp +decide only [countFEScan, countSub, cFAILED, cERROR,
            listStartsWith, List.drop, reduceIte]
          have ihr := ih r hrn
          simp only [cFAILED, cERROR] at ihr
          omega
        · have hcn : cs.length ≤ n := by
            simp only [List.length_cons] at hl
            omega
          simp only [countFEScan, countSub, if_neg h1, if_neg h2]
          rw [ih cs hcn]
          omega

theorem countFEScan_eq (l : List Char) :
    countFEScan l = countSub cFAILED l + countSub cERROR l :=
  countFEScan_eq_aux l.length l (Nat.le_refl _)

/-- The record returned by `parseTestResultsFromLogs`. -/
structure TestParseResult where
  passed : Nat
  failed : Nat
  logs : String
  error : Option String
  deriving DecidableEq, Repr

/-- `parseTestResultsFromLogs` from `TestSupportTool.tsx`: the guard
`!logs || logs.includes("ERROR collecting")` short-circuits to the error
record; otherwise the two global-regex match counts. -/
def parseTestResultsFromLogs (logs : String) : TestParseResult :=
  if logs = "" ∨ containsSub "ERROR collecting".data logs.data then
    ⟨0, 0, logs, some "No valid tests found or test file is invalid."⟩
  else
    ⟨countPassedScan logs.data, countFEScan logs.data, logs, none⟩

/-- C8: `parseTestResultsFromLogs` is total; an empty log or one containing
`"ERROR collecting"` yields `passed = 0`, `failed = 0` and an error message;
any other log yields `passed` = the number of occurrences of `"PASSED"` and
`failed` = the number of occurrences of `"FAILED"` plus those of `"ERROR"`
(the alternation's matches cannot overlap), with no error field. -/
theorem C8_parse_test_results (logs : String) :
    ((logs = "" ∨ containsSub "ERROR collecting".data logs.data = true) →
      parseTestResultsFromLogs logs =
        ⟨0, 0, logs, some "No valid tests found or test file is invalid."⟩) ∧
    (logs ≠ "" → containsSub "ERROR collecting".data logs.data = false →
      parseTestResultsFromLogs logs =
        ⟨countSub cPASSED logs.data,
          countSub cFAILED logs.data + countSub cERROR logs.data,
          logs, none⟩) := by
  constructor
  · intro h
    unfold parseTestResultsFromLogs
    rw [if_pos]
    rcases h with h | h
    · exact Or.inl h
    · exact Or.inr (by simp [h])
  · intro h1 h2
    unfold parseTestResultsFromLogs
    rw [if_neg (by
      rintro (h | h)
      · exact h1 h
      · rw [h2] at h
        exact absurd h (by simp))]
    rw [countPassedScan_eq, countFEScan_eq]

/-- Witness for C8 on a concrete pytest-style log line. -/
theorem C8_parse_test_results_witness :
    parseTestResultsFromLogs "t1 PASSED t2 FAILED t3 ERROR timeout" =
      ⟨1, 2, "t1 PASSED t2 FAILED t3 ERROR timeout", none⟩ := by
  have h := (C8_parse_test_results "t1 PASSED t2 FAILED t3 ERROR timeout").2
    (by decide) (by decide)
  rw [h]
  decide

/-! ## `TestSupportTool`: CircleCI status polling (C5) -/

/-- The `circleci_trigger` object of a `/test-support` response (relevant
fields). -/
structure CircleTrigger where
  success : Bool
  pipeline_id : Option String
  error : Option String
  deriving DecidableEq, Repr

/-- JS truthiness of an optional string field. -/
def optTruthy : Option String → Bool
  | some s => !(s = "")
  | none => false

/-- The poll period of the `setInterval` call, in milliseconds. -/
def pollIntervalMs : Nat := 5000

/-- `setIsPollingStatus` after `generateTestStrategy`: set iff
`circleciTrigger?.success`. -/
def startPollingFlag (trigger : Option CircleTrigger) : Bool :=
  match trigger with
  | some t => t.success
  | none => false

/-- `setCircleciPipeline` after `generateTestStrategy`: the trigger object
when it reports success, else the pipeline state stays cleared. -/
def pipelineAfterStrategy (trigger : Option CircleTrigger) :
    Option CircleTrigger :=
  match trigger with
  | some t => if t.success then some t else none
  | none => none

/-- The polling `useEffect` guard: the interval is installed only when
`isPollingStatus && circleciPipeline?.pipeline_id` is truthy. -/
def pollingLoopRuns (isPollingStatus : Bool)
    (pipeline : Option CircleTrigger) : Bool :=
  isPollingStatus &&
    (match pipeline with
     | some p => optTruthy p.pipeline_id
     | none => false)

/-- One observed outcome of `apiService.getCircleCIStatus`: a response with
`success: true` carrying an optional `state`, a response with
`success: false` (or falsy), or a thrown error. -/
inductive PollOutcome where
  | ok (state : Option String)
  | apiFail (err : Option String)
  | threw (msg : String)
  deriving DecidableEq, Repr

/-- The pipeline states on which the interval callback stops polling. -/
def terminalStates : List String := ["finished", "failed", "canceled", "error"]

/-- One interval tick: returns whether polling continues.  On a successful
status whose `state || ''` lies in the terminal list the callback calls
`setIsPollingStatus(false)`; every other outcome only logs and keeps the
interval alive. -/
def pollTickContinues : PollOutcome → Bool
  | .ok st => !(terminalStates.contains (st.getD ""))
  | .apiFail _ => true
  | .threw _ => true

/-- C5 counterexample: a trigger that reports success but carries no
`pipeline_id` sets the polling flag, yet the `useEffect` guard
`isPollingStatus && circleciPipeline?.pipeline_id` never installs the
interval, so no polling happens. -/
theorem C5_polling_counterexample :
    startPollingFlag (some ⟨true, none, none⟩) = true ∧
    pollingLoopRuns (startPollingFlag (some ⟨true, none, none⟩))
      (pipelineAfterStrategy (some ⟨true, none, none⟩)) = false := by
  decide

/-- C5 amended: after a test-strategy response whose CircleCI trigger reports
success and carries a non-empty `pipeline_id`, the polling interval (period
5000 ms) is active; and a tick stops the polling exactly when a successful
status response reports a state in `\x7b finished, failed, canceled,
error \x7d` — an error outcome or unrecognized state never stops it. -/
theorem C5_polling_amended (t : CircleTrigger) :
    pollIntervalMs = 5000 ∧
    (t.success = true → optTruthy t.pipeline_id = true →
      pollingLoopRuns (startPollingFlag (some t))
        (pipelineAfterStrategy (some t)) = true) ∧
    (∀ r : PollOutcome, pollTickContinues r = false ↔
      ∃ s, r = .ok (some s) ∧ s ∈ terminalStates) := by
  refine ⟨rfl, ?_, ?_⟩
  · intro hs hid
    obtain ⟨ts, tid, terr⟩ := t
    have hs' : ts = true := hs
    subst hs'
    simp [pollingLoopRuns, startPollingFlag, pipelineAfterStrategy, hid]
  · intro r
    cases r with
    | ok st =>
      cases st with
      | none =>
        constructor
        · intro h
          exact absurd h (by decide)
        · rintro ⟨s, hs, -⟩
          exact absurd hs (by simp)
      | some s =>
        constructor
        · intro h
          refine ⟨s, rfl, ?_⟩
          have hc : terminalStates.contains s = true := by
            simpa [pollTickContinues] using h
          simpa [List.contains] using hc
        · rintro ⟨s', hs', hmem⟩
          have hss : s = s' := by
            simpa using hs'
          subst hss
          simp [pollTickContinues, List.contains, hmem]
    | apiFail e =>
      constructor
      · intro h
        exact absurd h (by simp [pollTickContinues])
      · rintro ⟨s, hs, -⟩
        exact absurd hs (by simp)
    | threw m =>
      constructor
      · intro h
        exact absurd h (by simp [pollTickContinues])
      · rintro ⟨s, hs, -⟩
        exact absurd hs (by simp)

/-- Witness for C5 at a concrete successful trigger and concrete tick
outcomes. -/
theorem C5_polling_amended_witness :
    pollingLoopRuns (startPollingFlag (some ⟨true, some "abc-123", none⟩))
      (pipelineAfterStrategy (some ⟨true, some "abc-123", none⟩)) = true ∧
    (pollTickContinues (.ok (some "finished")) = false ↔
      ∃ s, PollOutcome.ok (some "finished") = .ok (some s) ∧
        s ∈ terminalStates) := by
  have h := C5_polling_amended ⟨true, some "abc-123", none⟩
  exact ⟨h.2.1 rfl (by decide), h.2.2 (.ok (some "finished"))⟩

/-! ## `CircularLauncher`: drag clamping and resize re-clamping (C9) -/

/-- The launcher button's CSS position (pixels). -/
structure LauncherPos where
  x : Int
  y : Int
  deriving DecidableEq, Repr

/-- The initial state: `useState(\x7b x: window.innerWidth - 100, y: 20 \x7d)`. -/
def initialLauncherPos (w : Int) : LauncherPos := ⟨w - 100, 20⟩

/-- `handleMouseMove`: the new position clamped by
`Math.max(0, Math.min(new, window.inner - 80))` in each axis. -/
def clampedMovePos (w h newX newY : Int) : LauncherPos :=
  ⟨max 0 (min newX (w - 80)), max 0 (min newY (h - 80))⟩

/-- `handleResize`: re-clamp only from above, `Math.min(prev, inner - 80)`. -/
def resizedPos (w h : Int) (p : LauncherPos) : LauncherPos :=
  ⟨min p.x (w - 80), min p.y (h - 80)⟩

/-- A position-changing event, carrying the live viewport it reads from
`window`. -/
inductive LauncherEvent where
  | move (w h newX newY : Int)
  | resize (w h : Int)
  deriving DecidableEq, Repr

def launcherStep (p : LauncherPos) : LauncherEvent → LauncherPos
  | .move w h nx ny => clampedMovePos w h nx ny
  | .resize w h => resizedPos w h p

def runLauncher (p : LauncherPos) (evs : List LauncherEvent) : LauncherPos :=
  evs.foldl launcherStep p

def eventViewport : LauncherEvent → Int × Int
  | .move w h _ _ => (w, h)
  | .resize w h => (w, h)

/-- The viewport in effect after a list of events (the last event's, or the
mount viewport). -/
def viewportAfter (w0 h0 : Int) (evs : List LauncherEvent) : Int × Int :=
  evs.foldl (fun _ e => eventViewport e) (w0, h0)

/-- The 80-pixel button lies entirely within the `w × h` viewport. -/
def insideViewport (p : LauncherPos) (w h : Int) : Prop :=
  0 ≤ p.x ∧ p.x ≤ w - 80 ∧ 0 ≤ p.y ∧ p.y ≤ h - 80

instance (p : LauncherPos) (w h : Int) : Decidable (insideViewport p w h) :=
  inferInstanceAs (Decidable (_ ∧ _ ∧ _ ∧ _))

/-- C9 counterexample: with an 80×80 viewport (within the claim's
"at least 80 pixels" assumption) the initial position is `(-20, 20)`, which
already sticks out of the viewport on the left, and a resize event does not
pull it back in. -/
theorem C9_launcher_counterexample :
    initialLauncherPos 80 = ⟨-20, 20⟩ ∧
    ¬ insideViewport (initialLauncherPos 80) 80 80 ∧
    ¬ insideViewport (runLauncher (initialLauncherPos 80)
        [.resize 80 80]) 80 80 := by
  decide

theorem launcher_inv (evs : List LauncherEvent) :
    ∀ (p : LauncherPos) (w h : Int), insideViewport p w h →
      (∀ e ∈ evs, 80 ≤ (eventViewport e).1 ∧ 80 ≤ (eventViewport e).2) →
      insideViewport (runLauncher p evs) (viewportAfter w h evs).1
        (viewportAfter w h evs).2 := by
  induction evs with
  | nil =>
    intro p w h hp _
    exact hp
  | cons e rest ih =>
    intro p w h hp hev
    have he := hev e (List.mem_cons_self e rest)
    have hrest : ∀ e₂ ∈ rest, 80 ≤ (eventViewport e₂).1 ∧
        80 ≤ (eventViewport e₂).2 :=
      fun e₂ hm => hev e₂ (List.mem_cons_of_mem e hm)
    cases e with
    | move w' h' nx ny =>
      refine ih (clampedMovePos w' h' nx ny) w' h' ?_ hrest
      simp only [eventViewport] at he
      obtain ⟨hw', hh'⟩ := he
      unfold insideViewport clampedMovePos at *
      dsimp only at *
      omega
    | resize w' h' =>
      refine ih (resizedPos w' h' p) w' h' ?_ hrest
      simp only [eventViewport] at he
      obtain ⟨hw', hh'⟩ := he
      obtain ⟨hx0, hxw, hy0, hyh⟩ := hp
      unfold insideViewport resizedPos at *
      dsimp only at *
      omega

/-- C9 amended: every drag-move clamps the position into
`[0, innerWidth-80] × [0, innerHeight-80]` and every resize re-clamps from
above while preserving nonnegativity, so the 80-pixel launcher stays within
the viewport along any event sequence — provided the viewport is at least
100×100 at mount (so that the initial position `(innerWidth-100, 20)` starts
inside; 80 pixels is enough only from the first event on) and at least 80
pixels in each dimension at every event. -/
theorem C9_launcher_stays_inside (w0 h0 : Int) (evs : List LauncherEvent)
    (hw0 : 100 ≤ w0) (hh0 : 100 ≤ h0)
    (hev : ∀ e ∈ evs, 80 ≤ (eventViewport e).1 ∧ 80 ≤ (eventViewport e).2) :
    insideViewport (runLauncher (initialLauncherPos w0) evs)
      (viewportAfter w0 h0 evs).1 (viewportAfter w0 h0 evs).2 := by
  refine launcher_inv evs (initialLauncherPos w0) w0 h0 ?_ hev
  unfold insideViewport initialLauncherPos
  dsimp only
  omega

/-- Witness for C9 along a concrete drag/resize trace. -/
theorem C9_launcher_stays_inside_witness :
    insideViewport
      (runLauncher (initialLauncherPos 1280)
        [.move 1280 800 2000 (-50), .resize 640 480, .move 640 480 100 90])
      (viewportAfter 1280 800
        [.move 1280 800 2000 (-50), .resize 640 480, .move 640 480 100 90]).1
      (viewportAfter 1280 800
        [.move 1280 800 2000 (-50), .resize 640 480, .move 640 480 100 90]).2 :=
  C9_launcher_stays_inside 1280 800
    [.move 1280 800 2000 (-50), .resize 640 480, .move 640 480 100 90]
    (by decide) (by decide) (by decide)

/-! ## Frame effect of user actions on durable storage (C6) -/

/-- The user-level operations of the modelled components. -/
inductive UserAction where
  | submitGoal (goal : String)
  | dragMove (w h newX newY : Int)
  | windowResize (w h : Int)
  | backendCall (c : ApiCall)
  | pollTick (r : PollOutcome)
  | apiKeySwap (newApiKeyId : String)
  deriving DecidableEq, Repr

/-- Effect of each modelled action on `localStorage`: only
`CircularLauncher.handleApiKeySwap` calls
`localStorage.setItem("selectedApiKeyId", newApiKeyId)`; every other handler
and every `ApiService` method only reads storage. -/
def localStorageAfter (st : BrowserStorage) : UserAction → BrowserStorage
  | .apiKeySwap id => storageSet st "selectedApiKeyId" id
  | _ => st

/-- C6 counterexample: the api-key swap writes durable browser storage, so
not every user action leaves `localStorage` unchanged. -/
theorem C6_storage_counterexample :
    localStorageAfter [] (.apiKeySwap "GENAI_API_KEY_2") ≠ [] ∧
    storageGet (localStorageAfter [] (.apiKeySwap "GENAI_API_KEY_2"))
      "selectedApiKeyId" = some "GENAI_API_KEY_2" := by
  decide

/-- C6 amended: every modelled user action except the api-key swap leaves
`localStorage` unchanged; the swap writes exactly the `selectedApiKeyId`
key (to the chosen id) and no other key. -/
theorem C6_storage_frame (st : BrowserStorage) (a : UserAction) :
    ((∀ id, a ≠ .apiKeySwap id) → localStorageAfter st a = st) ∧
    (∀ id, a = .apiKeySwap id →
      storageGet (localStorageAfter st a) "selectedApiKeyId" = some id ∧
      ∀ k, k ≠ "selectedApiKeyId" →
        storageGet (localStorageAfter st a) k = storageGet st k) := by
  constructor
  · intro hne
    cases a with
    | apiKeySwap id => exact absurd rfl (hne id)
    | submitGoal g => rfl
    | dragMove w h nx ny => rfl
    | windowResize w h => rfl
    | backendCall c => rfl
    | pollTick r => rfl
  · intro id ha
    subst ha
    constructor
    · exact storageGet_storageSet_same st "selectedApiKeyId" id
    · intro k hk
      exact storageGet_storageSet_other st "selectedApiKeyId" id k hk

/-- Witness for C6 at a concrete non-writing action and a concrete swap. -/
theorem C6_storage_frame_witness :
    localStorageAfter [("selectedApiKeyId", "GENAI_API_KEY_1")]
        (.submitGoal "summarize the video") =
      [("selectedApiKeyId", "GENAI_API_KEY_1")] ∧
    storageGet
        (localStorageAfter [("selectedApiKeyId", "GENAI_API_KEY_1")]
          (.apiKeySwap "GENAI_API_KEY_3"))
        "selectedApiKeyId" = some "GENAI_API_KEY_3" :=
  ⟨(C6_storage_frame [("selectedApiKeyId", "GENAI_API_KEY_1")]
      (.submitGoal "summarize the video")).1 (fun _ h => by cases h),
    ((C6_storage_frame [("selectedApiKeyId", "GENAI_API_KEY_1")]
      (.apiKeySwap "GENAI_API_KEY_3")).2 "GENAI_API_KEY_3" rfl).1⟩

end HTS
